import Mathlib

/-!
Shallow embedding of the planning-poker session core
(src/js/session.js, src/js/webrtc.js, src/js/config.js).

Conventions of the embedding:
* JS `null` votes are `Option Int` (`none` = not voted).
* The status strings 'waiting' / 'voting' / 'revealed' are the inductive
  `Status`; the role strings are `Role`.
* The global mutable `state` of session.js is the record `AppState`;
  every operation returns the new state together with the list of
  external effects it performs (storage writes, channel sends), in
  program order.
* The facilitator hub of webrtc.js is `HubState` (authoritative session
  plus the `_connMap` association of channel peer id to announced
  participant id); each message handler returns the new hub state and
  its effects.
-/

namespace Poker

/-- Session lifecycle status (config.js STATUS). -/
inductive Status
  | waiting
  | voting
  | revealed
deriving DecidableEq

/-- User role (config.js ROLE). -/
inductive Role
  | facilitator
  | participant
deriving DecidableEq

/-- Maximum number of non-facilitator participants (config.js MAX_PARTICIPANTS). -/
def MAX_PARTICIPANTS : Nat := 8

/-- Allowed Fibonacci voting deck (config.js FIBONACCI). -/
def FIBONACCI : List Int := [0, 1, 2, 3, 5, 8, 13]

/-- Roster entry (config.js Participant typedef). -/
structure Participant where
  id : String
  name : String
  vote : Option Int
  isFacilitator : Bool
deriving DecidableEq

/-- Authoritative session record (config.js Session typedef). -/
structure Session where
  id : String
  facilitatorId : String
  facilitatorName : String
  status : Status
  currentItem : String
  participants : List Participant
  createdAt : Nat
deriving DecidableEq

/-- The session record built by createSession (session.js lines 125-133):
facilitator alone in the roster, status waiting. -/
def mkSession (sessionId myId name item : String) (now : Nat) : Session :=
  { id := sessionId
    facilitatorId := myId
    facilitatorName := name
    status := .waiting
    currentItem := item
    participants := [{ id := myId, name := name, vote := none, isFacilitator := true }]
    createdAt := now }

/-- `participants.forEach(p => p.vote = null)` in launchVote / newRound. -/
def resetVotes (l : List Participant) : List Participant :=
  l.map (fun p => { p with vote := none })

/-- Core of updateItem (session.js): set currentItem only. -/
def updateItem (item : String) (s : Session) : Session :=
  { s with currentItem := item }

/-- Core of launchVote (session.js): optionally set currentItem, set the
status to voting, null every vote.  `none` models a call with the item
argument left undefined. -/
def launchVote (item : Option String) (s : Session) : Session :=
  { s with currentItem := item.getD s.currentItem
           status := .voting
           participants := resetVotes s.participants }

/-- Core of revealVotes (session.js): set the status to revealed. -/
def revealVotes (s : Session) : Session :=
  { s with status := .revealed }

/-- Core of newRound (session.js): set the status to waiting, null every vote. -/
def newRound (s : Session) : Session :=
  { s with status := .waiting, participants := resetVotes s.participants }

/-- Mutating the participant found by `participants.find(p => p.id === pid)`:
only the first entry with that id gets the new vote. -/
def setVoteFirst (pid : String) (v : Option Int) : List Participant → List Participant
  | [] => []
  | p :: ps => if p.id = pid then { p with vote := v } :: ps else p :: setVoteFirst pid v ps

/-- `participants.filter(p => p.id !== appId)` of _removeParticipant (webrtc.js). -/
def removeById (pid : String) (l : List Participant) : List Participant :=
  l.filter (fun p => p.id ≠ pid)

/-- Number of roster entries with isFacilitator = true. -/
def facCount (l : List Participant) : Nat :=
  (l.filter (fun p => p.isFacilitator)).length

/-- Number of roster entries with isFacilitator = false
(`participants.filter(p => !p.isFacilitator).length` in the join handler). -/
def nonFacCount (l : List Participant) : Nat :=
  (l.filter (fun p => ! p.isFacilitator)).length

/-- Participant → facilitator intent messages (webrtc.js header comment). -/
inductive PMsg
  | participantJoin (pid name : String)
  | voteCast (pid : String) (vote : Int)
  | participantLeave (pid : String)
deriving DecidableEq

/-- Facilitator → participant messages (webrtc.js header comment). -/
inductive HubMsg
  | stateSync (session : Session)
  | sessionClosed
  | errorMsg (code : String)
deriving DecidableEq

/-- External effects performed by the session.js operations, in program
order: storage writes, URL updates, channel sends and teardown. -/
inductive Eff
  | saveSession (s : Session)
  | broadcastState (s : Session)
  | broadcastClose
  | disconnect
  | deleteSession (id : Option String)
  | saveMe (id name : String)
  | clearMe
  | setUrl (sid : String)
  | clearUrl
  | send (m : PMsg)
deriving DecidableEq

/-- The global `state` object of session.js. -/
structure AppState where
  myId : String
  myName : String
  myRole : Role
  sessionId : Option String
  session : Option Session
deriving DecidableEq

/-- updateItem (session.js): guard on a loaded session, set currentItem,
save, broadcast. -/
def updateItemA (st : AppState) (item : String) : AppState × List Eff :=
  match st.session with
  | none => (st, [])
  | some s =>
    let s2 := updateItem item s
    ({ st with session := some s2 }, [.saveSession s2, .broadcastState s2])

/-- launchVote (session.js): guard on a loaded session, optionally set the
item, status := voting, null votes, save, broadcast. -/
def launchVoteA (st : AppState) (item : Option String) : AppState × List Eff :=
  match st.session with
  | none => (st, [])
  | some s =>
    let s2 := launchVote item s
    ({ st with session := some s2 }, [.saveSession s2, .broadcastState s2])

/-- revealVotes (session.js): guard on a loaded session, status := revealed,
save, broadcast. -/
def revealVotesA (st : AppState) : AppState × List Eff :=
  match st.session with
  | none => (st, [])
  | some s =>
    let s2 := revealVotes s
    ({ st with session := some s2 }, [.saveSession s2, .broadcastState s2])

/-- newRound (session.js): guard on a loaded session, status := waiting,
null votes, save, broadcast. -/
def newRoundA (st : AppState) : AppState × List Eff :=
  match st.session with
  | none => (st, [])
  | some s =>
    let s2 := newRound s
    ({ st with session := some s2 }, [.saveSession s2, .broadcastState s2])

/-- closeSession (session.js): guard on a loaded session, notify and tear
down every channel, delete the stored session and identity, clear the URL,
null the local session fields. -/
def closeSessionA (st : AppState) : AppState × List Eff :=
  match st.session with
  | none => (st, [])
  | some _ =>
    ({ st with session := none, sessionId := none },
     [.broadcastClose, .disconnect, .deleteSession st.sessionId, .clearMe, .clearUrl])

/-- castVote (session.js): returns false with no mutation unless a session
is loaded, the local role is not facilitator, the status is voting and the
local id is in the roster; otherwise records the vote optimistically on the
local mirror and sends vote_cast to the facilitator. -/
def castVoteA (st : AppState) (v : Int) : Bool × AppState × List Eff :=
  match st.session with
  | none => (false, st, [])
  | some s =>
    if st.myRole = .facilitator then (false, st, [])
    else if s.status ≠ .voting then (false, st, [])
    else
      match s.participants.find? (fun p => p.id = st.myId) with
      | none => (false, st, [])
      | some _ =>
        let s2 := { s with participants := setVoteFirst st.myId (some v) s.participants }
        (true, { st with session := some s2 }, [.send (.voteCast st.myId v)])

/-- leaveSession (session.js): guard on a loaded session, send
participant_leave, tear down the channel, clear identity and URL, null the
local session fields. -/
def leaveSessionA (st : AppState) : AppState × List Eff :=
  match st.session with
  | none => (st, [])
  | some _ =>
    ({ st with session := none, sessionId := none },
     [.send (.participantLeave st.myId), .disconnect, .clearMe, .clearUrl])

/-- Effects emitted by the facilitator hub (webrtc.js). -/
inductive HubEff
  | sendTo (peer : String) (m : HubMsg)
  | closeConn (peer : String)
  | saveSession (s : Session)
  | broadcast (s : Session)
deriving DecidableEq

/-- Facilitator-side hub state: the authoritative session reference and the
_connMap association (channel peer id ↦ announced participant id). -/
structure HubState where
  session : Option Session
  connMap : List (String × String)
deriving DecidableEq

/-- `Map.set` on _connMap: replace the value of an existing key in place,
append a fresh key. -/
def mapSet : List (String × String) → String → String → List (String × String)
  | [], peer, appId => [(peer, appId)]
  | e :: rest, peer, appId =>
    if e.1 = peer then (peer, appId) :: rest else e :: mapSet rest peer appId

/-- `Map.delete` on _connMap. -/
def mapDelete (m : List (String × String)) (peer : String) : List (String × String) :=
  m.filter (fun e => e.1 ≠ peer)

/-- `Map.get` on _connMap. -/
def mapGet (m : List (String × String)) (peer : String) : Option String :=
  (m.find? (fun e => e.1 = peer)).map (fun e => e.2)

/-- The participant_join case of _onParticipantMessage (webrtc.js lines
102-122): register the channel in _connMap; if the pid is already enrolled
skip the push (and the capacity check); if the non-facilitator count has
reached the cap reply SESSION_FULL on that channel only and close it with
no roster change; otherwise append the newcomer with a null vote; in the
non-rejected cases save and broadcast. -/
def handleJoin (h : HubState) (peer pid name : String) : HubState × List HubEff :=
  match h.session with
  | none => (h, [])
  | some sess =>
    let cm := mapSet h.connMap peer pid
    if sess.participants.any (fun p => p.id = pid) then
      ({ session := some sess, connMap := cm }, [.saveSession sess, .broadcast sess])
    else if MAX_PARTICIPANTS ≤ nonFacCount sess.participants then
      ({ session := some sess, connMap := cm },
       [.sendTo peer (.errorMsg "SESSION_FULL"), .closeConn peer])
    else
      let sess2 := { sess with participants :=
        sess.participants ++ [{ id := pid, name := name, vote := none, isFacilitator := false }] }
      ({ session := some sess2, connMap := cm }, [.saveSession sess2, .broadcast sess2])

/-- The session produced by recording a vote: `voter.vote = msg.vote` on
the participant found by id. -/
def voteApplied (sess : Session) (pid : String) (v : Int) : Session :=
  { sess with participants := setVoteFirst pid (some v) sess.participants }

/-- The vote_cast case of _onParticipantMessage (webrtc.js lines 124-133):
ignore unless the status is voting and a participant with the pid exists,
otherwise record the vote verbatim, save and broadcast. -/
def handleVoteCast (h : HubState) (pid : String) (v : Int) : HubState × List HubEff :=
  match h.session with
  | none => (h, [])
  | some sess =>
    if sess.status ≠ .voting then (h, [])
    else
      match sess.participants.find? (fun p => p.id = pid) with
      | none => (h, [])
      | some _ =>
        let sess2 := voteApplied sess pid v
        ({ h with session := some sess2 }, [.saveSession sess2, .broadcast sess2])

/-- _removeParticipant (webrtc.js lines 151-161): filter the roster by id;
save and broadcast only when the length shrank. -/
def hubRemove (h : HubState) (appId : String) : HubState × List HubEff :=
  match h.session with
  | none => (h, [])
  | some sess =>
    let l2 := removeById appId sess.participants
    let sess2 := { sess with participants := l2 }
    ({ h with session := some sess2 },
     if l2.length < sess.participants.length then [.saveSession sess2, .broadcast sess2] else [])

/-- The participant_leave case of _onParticipantMessage (webrtc.js lines
135-139): remove by the announced pid, then drop the channel from _connMap.
The whole handler is guarded by a loaded session. -/
def handleLeave (h : HubState) (peer pid : String) : HubState × List HubEff :=
  match h.session with
  | none => (h, [])
  | some _ =>
    let r := hubRemove h pid
    ({ r.1 with connMap := mapDelete r.1.connMap peer }, r.2)

/-- _onParticipantDisconnect (webrtc.js lines 143-149): if the channel is
known, remove the participant it had announced and forget the channel. -/
def handleDisconnect (h : HubState) (peer : String) : HubState × List HubEff :=
  match mapGet h.connMap peer with
  | none => (h, [])
  | some appId =>
    let r := hubRemove h appId
    ({ r.1 with connMap := mapDelete r.1.connMap peer }, r.2)

/-- Events that drive the facilitator-side state: the three intent messages,
a channel disconnect, and the four facilitator operations. -/
inductive HubEvent
  | join (peer pid name : String)
  | voteCast (pid : String) (v : Int)
  | leave (peer pid : String)
  | disconnect (peer : String)
  | launch (item : Option String)
  | reveal
  | round
  | update (item : String)
deriving DecidableEq

/-- One step of the facilitator-side state (state effect of each handler;
the facilitator operations keep the session.js null guard via Option.map). -/
def stepH (h : HubState) : HubEvent → HubState
  | .join peer pid name => (handleJoin h peer pid name).1
  | .voteCast pid v => (handleVoteCast h pid v).1
  | .leave peer pid => (handleLeave h peer pid).1
  | .disconnect peer => (handleDisconnect h peer).1
  | .launch item => { h with session := h.session.map (launchVote item) }
  | .reveal => { h with session := h.session.map revealVotes }
  | .round => { h with session := h.session.map newRound }
  | .update item => { h with session := h.session.map (updateItem item) }

/-- Run a trace of events from a hub state. -/
def runH (h : HubState) (es : List HubEvent) : HubState :=
  es.foldl stepH h

/-- Facilitator-side state right after a successful createSession: the
fresh session and an empty _connMap. -/
def hubInit (sessionId myId name item : String) (now : Nat) : HubState :=
  { session := some (mkSession sessionId myId name item now), connMap := [] }

/-- Roster of the hub's session (empty when no session is loaded). -/
def sessParts (h : HubState) : List Participant :=
  match h.session with
  | none => []
  | some s => s.participants

/-- The four facilitator mutations of session.js that broadcast a new
state (updateItem, launchVote, revealVotes, newRound). -/
inductive Mutation
  | update (item : String)
  | launch (item : Option String)
  | reveal
  | round
deriving DecidableEq

/-- Apply one facilitator mutation to the authoritative session. -/
def applyMutation (s : Session) : Mutation → Session
  | .update item => updateItem item s
  | .launch item => launchVote item s
  | .reveal => revealVotes s
  | .round => newRound s

/-- Facilitator state after a sequence of mutations. -/
def runMutations (s : Session) (ms : List Mutation) : Session :=
  ms.foldl applyMutation s

/-- The participant-side mirror update of _onFacilitatorMessage (webrtc.js
lines 213-243): state_sync replaces the mirror wholesale; session_closed
and error do not touch the mirror. -/
def spokeApply (mirror : Option Session) : HubMsg → Option Session
  | .stateSync s => some s
  | .sessionClosed => mirror
  | .errorMsg _ => mirror

/-- Mirror after receiving a sequence of facilitator messages. -/
def spokeRun (mirror : Option Session) (msgs : List HubMsg) : Option Session :=
  msgs.foldl spokeApply mirror

/-- The state_sync broadcasts emitted after each mutation of a sequence
(broadcastState sends the then-current full session). -/
def broadcastsOf (s : Session) : List Mutation → List HubMsg
  | [] => []
  | m :: rest => .stateSync (applyMutation s m) :: broadcastsOf (applyMutation s m) rest

/-- Outcome of one createFacilitatorPeer attempt (webrtc.js lines 68-82):
the peer opens, the id is already taken, or another peer error. -/
inductive BindResult
  | ok
  | idTaken
  | otherErr
deriving DecidableEq

/-- The createSession retry loop of session.js lines 106-118, indexed by
the current attempt number i and the remaining loop iterations (the JS
loop runs i = 0..4; an ID_TAKEN failure retries only while i < 4, any
other failure aborts).  `bind i` is the outcome of binding the i-th
generated code `codes i`. -/
def createLoopAux (bind : Nat → BindResult) (codes : Nat → String) :
    Nat → Nat → Option String
  | _, 0 => none
  | i, fuel + 1 =>
    match bind i with
    | .ok => some (codes i)
    | .idTaken => if i < 4 then createLoopAux bind codes (i + 1) fuel else none
    | .otherErr => none

/-- The code bound by createSession's retry loop, if any. -/
def createAttempts (bind : Nat → BindResult) (codes : Nat → String) : Option String :=
  createLoopAux bind codes 0 5

/-- createSession (session.js lines 101-140): empty name fails; otherwise
run the retry loop; on failure return false with nothing persisted; on
success build the session, persist it and the identity, publish the URL. -/
def createSessionF (bind : Nat → BindResult) (codes : Nat → String)
    (myId name item : String) (now : Nat) : Bool × Option Session × List Eff :=
  if name = "" then (false, none, [])
  else
    match createAttempts bind codes with
    | none => (false, none, [])
    | some sid =>
      let s := mkSession sid myId name item now
      (true, some s, [.saveSession s, .saveMe myId name, .setUrl sid])

/-- First vote recorded in the roster for an id
(`participants.find(p => p.id === pid)?.vote`). -/
def lookupVote (pid : String) (l : List Participant) : Option (Option Int) :=
  (l.find? (fun p => p.id = pid)).map (fun p => p.vote)

/-! Helper lemmas. -/

theorem resetVotes_all_none (l : List Participant) :
    ((resetVotes l).all (fun p => p.vote == none)) = true := by
  induction l with
  | nil => rfl
  | cons p ps ih => simp [resetVotes]

theorem spokeRun_broadcastsOf :
    ∀ (ms : List Mutation) (s0 : Session) (mirror : Option Session), ms ≠ [] →
      spokeRun mirror (broadcastsOf s0 ms) = some (runMutations s0 ms) := by
  intro ms
  induction ms with
  | nil => intro s0 mirror h; cases h rfl
  | cons m rest ih =>
    intro s0 mirror h
    cases rest with
    | nil => simp [broadcastsOf, spokeRun, spokeApply, runMutations]
    | cons m2 r2 =>
      simpa [broadcastsOf, spokeRun, spokeApply, runMutations] using
        ih (applyMutation s0 m) (some (applyMutation s0 m)) (by simp)

/-! Claim theorems. -/

/-- C8: for every session state and every text, updateItem sets currentItem
to the text and leaves every other field of the session unchanged (status,
participants and their votes, facilitatorId, id, facilitatorName,
createdAt); it is total, hence permitted in every status. -/
theorem c8_updateItem_frame (s : Session) (item : String) :
    (updateItem item s).currentItem = item ∧
    (updateItem item s).status = s.status ∧
    (updateItem item s).participants = s.participants ∧
    (updateItem item s).facilitatorId = s.facilitatorId ∧
    (updateItem item s).id = s.id ∧
    (updateItem item s).facilitatorName = s.facilitatorName ∧
    (updateItem item s).createdAt = s.createdAt :=
  ⟨rfl, rfl, rfl, rfl, rfl, rfl, rfl⟩

/-- C4: immediately after launchVote (with or without an item) every
participant's vote is null and the status is voting; immediately after
newRound every participant's vote is null and the status is waiting —
regardless of the prior status and votes. -/
theorem c4_vote_reset (s : Session) (item : Option String) :
    (launchVote item s).status = .voting ∧
    (newRound s).status = .waiting ∧
    ((launchVote item s).participants.all (fun p => p.vote == none)) = true ∧
    ((newRound s).participants.all (fun p => p.vote == none)) = true :=
  ⟨rfl, rfl, resetVotes_all_none s.participants, resetVotes_all_none s.participants⟩

/-- C5: a participant that receives only the final state_sync broadcast
after a sequence of facilitator mutations holds a mirror equal to the
facilitator's state after the whole sequence, whatever its mirror held
before; and (for a nonempty sequence) this equals what it would hold after
receiving every intermediate broadcast. -/
theorem c5_snapshot_convergence (s0 : Session) (ms : List Mutation) (mirror : Option Session) :
    spokeRun mirror [.stateSync (runMutations s0 ms)] = some (runMutations s0 ms) ∧
    (ms ≠ [] → spokeRun mirror (broadcastsOf s0 ms) = some (runMutations s0 ms)) :=
  ⟨rfl, fun h => spokeRun_broadcastsOf ms s0 mirror h⟩

/-- Sample session used to instantiate C5. -/
def sessC5 : Session := mkSession "AAAA" "f1" "Fay" "" 0

/-- C5 witness: concrete instantiation with one mutation and an empty
mirror. -/
theorem c5_snapshot_convergence_witness :
    spokeRun none [.stateSync (runMutations sessC5 [.launch (some "Story 1")])] =
      some (runMutations sessC5 [.launch (some "Story 1")]) ∧
    spokeRun none (broadcastsOf sessC5 [.launch (some "Story 1")]) =
      some (runMutations sessC5 [.launch (some "Story 1")]) :=
  ⟨(c5_snapshot_convergence sessC5 [.launch (some "Story 1")] none).1,
   (c5_snapshot_convergence sessC5 [.launch (some "Story 1")] none).2 (by simp)⟩

/-- C9: every public session operation invoked while no session is loaded
returns immediately (castVote returning false), mutates nothing, and sends
no message and performs no other effect. -/
theorem c9_null_session_total (st : AppState) (item : String) (it2 : Option String) (v : Int)
    (h : st.session = none) :
    updateItemA st item = (st, []) ∧
    launchVoteA st it2 = (st, []) ∧
    revealVotesA st = (st, []) ∧
    newRoundA st = (st, []) ∧
    closeSessionA st = (st, []) ∧
    castVoteA st v = (false, st, []) ∧
    leaveSessionA st = (st, []) := by
  refine ⟨?_, ?_, ?_, ?_, ?_, ?_, ?_⟩ <;>
    simp [updateItemA, launchVoteA, revealVotesA, newRoundA, closeSessionA,
          castVoteA, leaveSessionA, h]

/-- Sample app state with no loaded session, used to instantiate C9. -/
def stNull : AppState :=
  { myId := "me1", myName := "Mel", myRole := .participant, sessionId := none, session := none }

/-- C9 witness: concrete instantiation at a state with no session. -/
theorem c9_null_session_total_witness :
    updateItemA stNull "x" = (stNull, []) ∧
    launchVoteA stNull (some "y") = (stNull, []) ∧
    revealVotesA stNull = (stNull, []) ∧
    newRoundA stNull = (stNull, []) ∧
    closeSessionA stNull = (stNull, []) ∧
    castVoteA stNull 5 = (false, stNull, []) ∧
    leaveSessionA stNull = (stNull, []) :=
  c9_null_session_total stNull "x" (some "y") 5 rfl

theorem lookupVote_setVoteFirst (pid : String) (v : Int) (l : List Participant)
    (h : (l.any (fun p => p.id = pid)) = true) :
    lookupVote pid (setVoteFirst pid (some v) l) = some (some v) := by
  induction l with
  | nil => simp at h
  | cons p ps ih =>
    by_cases hp : p.id = pid
    · simp [setVoteFirst, hp, lookupVote, List.find?_cons]
    · have hps : (ps.any (fun q => q.id = pid)) = true := by
        simp [List.any_cons, hp] at h
        simpa using h
      have := ih hps
      simp [setVoteFirst, hp, lookupVote, List.find?_cons] at this ⊢
      exact this

/-- C10: the hub's vote_cast handler records any Int value verbatim for an
existing pid while voting, and broadcasts the updated state; the
participant-side castVote likewise succeeds for any value — neither checks
the value against the FIBONACCI deck. -/
theorem c10_unvalidated_votes (h : HubState) (sess : Session) (pid : String) (v : Int)
    (st : AppState) (s : Session) :
    (h.session = some sess → sess.status = .voting →
      (sess.participants.any (fun p => p.id = pid)) = true →
      (handleVoteCast h pid v).1.session = some (voteApplied sess pid v) ∧
      (handleVoteCast h pid v).2 =
        [.saveSession (voteApplied sess pid v), .broadcast (voteApplied sess pid v)] ∧
      lookupVote pid (setVoteFirst pid (some v) sess.participants) = some (some v)) ∧
    (st.session = some s → st.myRole ≠ .facilitator → s.status = .voting →
      (s.participants.any (fun p => p.id = st.myId)) = true →
      (castVoteA st v).1 = true ∧
      (castVoteA st v).2.2 = [.send (.voteCast st.myId v)]) := by
  constructor
  · intro hs hst hany
    have hfind : (sess.participants.find? (fun p => p.id = pid)).isSome := by
      rw [List.find?_isSome]
      rcases List.any_eq_true.mp hany with ⟨x, hx, hpx⟩
      exact ⟨x, hx, hpx⟩
    rcases hq : sess.participants.find? (fun p => p.id = pid) with _ | q
    · rw [hq] at hfind; simp at hfind
    · refine ⟨?_, ?_, lookupVote_setVoteFirst pid v sess.participants hany⟩ <;>
        simp [handleVoteCast, hs, hst, hq]
  · intro hs hrole hst hany
    have hfind : (s.participants.find? (fun p => p.id = st.myId)).isSome := by
      rw [List.find?_isSome]
      rcases List.any_eq_true.mp hany with ⟨x, hx, hpx⟩
      exact ⟨x, hx, hpx⟩
    rcases hq : s.participants.find? (fun p => p.id = st.myId) with _ | q
    · rw [hq] at hfind; simp at hfind
    · constructor <;> simp [castVoteA, hs, hrole, hst, hq]

/-- Sample voting-phase session used to instantiate C10. -/
def sessC10 : Session :=
  { id := "BBBB", facilitatorId := "f1", facilitatorName := "Fay", status := .voting,
    currentItem := "S",
    participants :=
      [{ id := "f1", name := "Fay", vote := none, isFacilitator := true },
       { id := "p1", name := "Pat", vote := none, isFacilitator := false }],
    createdAt := 0 }

/-- Hub holding sessC10. -/
def hubC10 : HubState := { session := some sessC10, connMap := [] }

/-- Participant-side state of p1 mirroring sessC10. -/
def stC10 : AppState :=
  { myId := "p1", myName := "Pat", myRole := .participant,
    sessionId := some "BBBB", session := some sessC10 }

/-- C10 witness: the value 4 is outside the FIBONACCI deck, yet both the
hub handler and castVote record it. -/
theorem c10_unvalidated_votes_witness :
    (4 : Int) ∉ FIBONACCI ∧
    (handleVoteCast hubC10 "p1" 4).1.session = some (voteApplied sessC10 "p1" 4) ∧
    lookupVote "p1" (setVoteFirst "p1" (some 4) sessC10.participants) = some (some 4) ∧
    (castVoteA stC10 4).1 = true :=
  ⟨by decide,
   ((c10_unvalidated_votes hubC10 sessC10 "p1" 4 stC10 sessC10).1 rfl rfl (by decide)).1,
   ((c10_unvalidated_votes hubC10 sessC10 "p1" 4 stC10 sessC10).1 rfl rfl (by decide)).2.2,
   (((c10_unvalidated_votes hubC10 sessC10 "p1" 4 stC10 sessC10).2 rfl (by decide) rfl
      (by decide))).1⟩

theorem mapSet_idem (m : List (String × String)) (peer appId : String) :
    mapSet (mapSet m peer appId) peer appId = mapSet m peer appId := by
  induction m with
  | nil => simp [mapSet]
  | cons e rest ih =>
    by_cases he : e.1 = peer
    · simp [mapSet, he]
    · simp [mapSet, he, ih]

/-- C6: handling participant_join twice with the same (id, name) on the
same channel produces the same hub state as handling it once; and when the
id is already enrolled, the roster (hence the existing entry's name and
vote) is unchanged and the effects are exactly save-and-broadcast — in
particular no SESSION_FULL capacity rejection is issued for an enrolled
id. -/
theorem c6_idempotent_rejoin (h : HubState) (peer pid name : String) :
    (handleJoin (handleJoin h peer pid name).1 peer pid name).1 =
      (handleJoin h peer pid name).1 ∧
    (∀ sess, h.session = some sess →
      (sess.participants.any (fun p => p.id = pid)) = true →
      (handleJoin h peer pid name).1.session = some sess ∧
      (handleJoin h peer pid name).2 = [.saveSession sess, .broadcast sess]) := by
  rcases hs : h.session with _ | sess
  · constructor
    · simp [handleJoin, hs]
    · intro sess hsess; cases hsess
  · constructor
    · by_cases ha : (sess.participants.any (fun p => p.id = pid)) = true
      · simp [handleJoin, hs, ha, mapSet_idem]
      · by_cases hcap : MAX_PARTICIPANTS ≤ nonFacCount sess.participants
        · simp [handleJoin, hs, ha, hcap, mapSet_idem]
        · have ha2 : ((sess.participants ++
              [({ id := pid, name := name, vote := none, isFacilitator := false } : Participant)]).any
                (fun p => p.id = pid)) = true := by
            simp [List.any_append]
          simp [handleJoin, hs, ha, hcap, ha2, mapSet_idem]
    · intro sess2 hsess ha
      obtain rfl : sess = sess2 := Option.some.inj hsess
      constructor <;> simp [handleJoin, hs, ha]

/-- Sample session with one enrolled participant, used to instantiate C6. -/
def sessC6 : Session :=
  { id := "CCCC", facilitatorId := "f1", facilitatorName := "Fay", status := .waiting,
    currentItem := "",
    participants :=
      [{ id := "f1", name := "Fay", vote := none, isFacilitator := true },
       { id := "p1", name := "Pat", vote := none, isFacilitator := false }],
    createdAt := 0 }

/-- Hub holding sessC6. -/
def hubC6 : HubState := { session := some sessC6, connMap := [] }

/-- C6 witness: rejoining with the enrolled id p1 changes nothing. -/
theorem c6_idempotent_rejoin_witness :
    (handleJoin (handleJoin hubC6 "peerA" "p1" "Pat").1 "peerA" "p1" "Pat").1 =
      (handleJoin hubC6 "peerA" "p1" "Pat").1 ∧
    (handleJoin hubC6 "peerA" "p1" "Pat").1.session = some sessC6 ∧
    (handleJoin hubC6 "peerA" "p1" "Pat").2 = [.saveSession sessC6, .broadcast sessC6] :=
  ⟨(c6_idempotent_rejoin hubC6 "peerA" "p1" "Pat").1,
   ((c6_idempotent_rejoin hubC6 "peerA" "p1" "Pat").2 sessC6 rfl (by decide)).1,
   ((c6_idempotent_rejoin hubC6 "peerA" "p1" "Pat").2 sessC6 rfl (by decide)).2⟩

theorem nonFacCount_append_nonfac (l : List Participant) (p : Participant)
    (hp : p.isFacilitator = false) :
    nonFacCount (l ++ [p]) = nonFacCount l + 1 := by
  simp [nonFacCount, List.filter_append, hp]

theorem nonFacCount_setVoteFirst (pid : String) (v : Option Int) (l : List Participant) :
    nonFacCount (setVoteFirst pid v l) = nonFacCount l := by
  induction l with
  | nil => rfl
  | cons p ps ih =>
    by_cases hp : p.id = pid
    · rcases hf : p.isFacilitator <;>
        simp [setVoteFirst, hp, nonFacCount, List.filter_cons, hf]
    · simp [setVoteFirst, hp, nonFacCount, List.filter_cons] at ih ⊢
      rcases hf : p.isFacilitator <;> simp [hf, ih]

theorem nonFacCount_resetVotes (l : List Participant) :
    nonFacCount (resetVotes l) = nonFacCount l := by
  induction l with
  | nil => rfl
  | cons p ps ih =>
    simp [resetVotes, nonFacCount, List.filter_cons] at ih ⊢
    rcases hf : p.isFacilitator <;> simp [hf, ih]

theorem nonFacCount_removeById_le (pid : String) (l : List Participant) :
    nonFacCount (removeById pid l) ≤ nonFacCount l := by
  have hsub : List.Sublist ((removeById pid l).filter (fun p => ! p.isFacilitator))
      (l.filter (fun p => ! p.isFacilitator)) :=
    List.Sublist.filter _ (List.filter_sublist l)
  simpa [nonFacCount] using hsub.length_le

theorem nonFac_le_step (h : HubState) (e : HubEvent)
    (hI : nonFacCount (sessParts h) ≤ MAX_PARTICIPANTS) :
    nonFacCount (sessParts (stepH h e)) ≤ MAX_PARTICIPANTS := by
  cases e with
  | join peer pid name =>
    rcases hs : h.session with _ | sess
    · simpa [stepH, handleJoin, hs] using hI
    · rw [sessParts, hs] at hI
      by_cases ha : (sess.participants.any (fun p => p.id = pid)) = true
      · simpa [stepH, handleJoin, hs, ha, sessParts] using hI
      · by_cases hcap : MAX_PARTICIPANTS ≤ nonFacCount sess.participants
        · simpa [stepH, handleJoin, hs, ha, hcap, sessParts] using hI
        · have hlt : nonFacCount sess.participants < MAX_PARTICIPANTS :=
            Nat.lt_of_not_le hcap
          simp [stepH, handleJoin, hs, ha, hcap, sessParts,
                nonFacCount_append_nonfac sess.participants
                  { id := pid, name := name, vote := none, isFacilitator := false } rfl]
          omega
  | voteCast pid v =>
    rcases hs : h.session with _ | sess
    · simpa [stepH, handleVoteCast, hs] using hI
    · rw [sessParts, hs] at hI
      by_cases hst : sess.status = Status.voting
      · rcases hq : sess.participants.find? (fun p => p.id = pid) with _ | q
        · simpa [stepH, handleVoteCast, hs, hst, hq, sessParts] using hI
        · simpa [stepH, handleVoteCast, hs, hst, hq, sessParts, voteApplied,
                 nonFacCount_setVoteFirst] using hI
      · simpa [stepH, handleVoteCast, hs, hst, sessParts] using hI
  | leave peer pid =>
    rcases hs : h.session with _ | sess
    · simpa [stepH, handleLeave, hs] using hI
    · rw [sessParts, hs] at hI
      simp [stepH, handleLeave, hubRemove, hs, sessParts]
      exact le_trans (nonFacCount_removeById_le pid sess.participants) hI
  | disconnect peer =>
    rcases hg : mapGet h.connMap peer with _ | appId
    · simpa [stepH, handleDisconnect, hg] using hI
    · rcases hs : h.session with _ | sess
      · simp [stepH, handleDisconnect, hg, hubRemove, hs, sessParts, nonFacCount]
      · rw [sessParts, hs] at hI
        simp [stepH, handleDisconnect, hg, hubRemove, hs, sessParts]
        exact le_trans (nonFacCount_removeById_le appId sess.participants) hI
  | launch item =>
    rcases hs : h.session with _ | sess
    · simp [stepH, hs, sessParts, nonFacCount]
    · rw [sessParts, hs] at hI
      simpa [stepH, hs, sessParts, launchVote, nonFacCount_resetVotes] using hI
  | reveal =>
    rcases hs : h.session with _ | sess
    · simp [stepH, hs, sessParts, nonFacCount]
    · rw [sessParts, hs] at hI
      simpa [stepH, hs, sessParts, revealVotes] using hI
  | round =>
    rcases hs : h.session with _ | sess
    · simp [stepH, hs, sessParts, nonFacCount]
    · rw [sessParts, hs] at hI
      simpa [stepH, hs, sessParts, newRound, nonFacCount_resetVotes] using hI
  | update item =>
    rcases hs : h.session with _ | sess
    · simp [stepH, hs, sessParts, nonFacCount]
    · rw [sessParts, hs] at hI
      simpa [stepH, hs, sessParts, updateItem] using hI

theorem nonFac_le_run (h : HubState) (es : List HubEvent)
    (hI : nonFacCount (sessParts h) ≤ MAX_PARTICIPANTS) :
    nonFacCount (sessParts (runH h es)) ≤ MAX_PARTICIPANTS := by
  induction es generalizing h with
  | nil => exact hI
  | cons e es ih =>
    have : runH h (e :: es) = runH (stepH h e) es := by simp [runH]
    rw [this]
    exact ih (stepH h e) (nonFac_le_step h e hI)

/-- C2: in every hub state reachable from createSession by any trace of
join, vote, leave, disconnect and facilitator operations, the number of
non-facilitator participants is at most MAX_PARTICIPANTS (8); and a
participant_join for an id not in the roster arriving when that count
already equals 8 makes the hub reply SESSION_FULL to that channel only,
close that channel, and leave the roster unchanged. -/
theorem c2_capacity (sid myId name item : String) (now : Nat) (es : List HubEvent)
    (h : HubState) (sess : Session) (peer pid pname : String) :
    nonFacCount (sessParts (runH (hubInit sid myId name item now) es)) ≤ MAX_PARTICIPANTS ∧
    (h.session = some sess →
      (sess.participants.any (fun p => p.id = pid)) = false →
      nonFacCount sess.participants = MAX_PARTICIPANTS →
      handleJoin h peer pid pname =
        ({ session := some sess, connMap := mapSet h.connMap peer pid },
         [.sendTo peer (.errorMsg "SESSION_FULL"), .closeConn peer])) := by
  constructor
  · apply nonFac_le_run
    simp [hubInit, sessParts, mkSession, nonFacCount]
  · intro hs ha hfull
    have hcap : MAX_PARTICIPANTS ≤ nonFacCount sess.participants := le_of_eq hfull.symm
    simp [handleJoin, hs, ha, hcap]

/-- Sample session at full capacity: the facilitator plus 8 participants. -/
def sessFull : Session :=
  { id := "DDDD", facilitatorId := "f1", facilitatorName := "Fay", status := .waiting,
    currentItem := "",
    participants :=
      [{ id := "f1", name := "Fay", vote := none, isFacilitator := true },
       { id := "p1", name := "P1", vote := none, isFacilitator := false },
       { id := "p2", name := "P2", vote := none, isFacilitator := false },
       { id := "p3", name := "P3", vote := none, isFacilitator := false },
       { id := "p4", name := "P4", vote := none, isFacilitator := false },
       { id := "p5", name := "P5", vote := none, isFacilitator := false },
       { id := "p6", name := "P6", vote := none, isFacilitator := false },
       { id := "p7", name := "P7", vote := none, isFacilitator := false },
       { id := "p8", name := "P8", vote := none, isFacilitator := false }],
    createdAt := 0 }

/-- Hub holding sessFull. -/
def hubFull : HubState := { session := some sessFull, connMap := [] }

/-- C2 witness: a 9th join on the concrete full session is rejected with
SESSION_FULL, its channel is closed, and the roster is unchanged; and a
concrete one-event run respects the cap. -/
theorem c2_capacity_witness :
    nonFacCount (sessParts (runH (hubInit "DDDD" "f1" "Fay" "" 0)
      [.join "pe1" "q1" "Ann"])) ≤ MAX_PARTICIPANTS ∧
    handleJoin hubFull "pe9" "p9" "Nina" =
      ({ session := some sessFull, connMap := mapSet hubFull.connMap "pe9" "p9" },
       [.sendTo "pe9" (.errorMsg "SESSION_FULL"), .closeConn "pe9"]) :=
  ⟨(c2_capacity "DDDD" "f1" "Fay" "" 0 [.join "pe1" "q1" "Ann"]
      hubFull sessFull "pe9" "p9" "Nina").1,
   (c2_capacity "DDDD" "f1" "Fay" "" 0 [.join "pe1" "q1" "Ann"]
      hubFull sessFull "pe9" "p9" "Nina").2 rfl (by decide) (by decide)⟩

theorem setVoteFirst_overwrite (pid : String) (v1 v2 : Option Int) (l : List Participant) :
    setVoteFirst pid v2 (setVoteFirst pid v1 l) = setVoteFirst pid v2 l := by
  induction l with
  | nil => rfl
  | cons p ps ih =>
    by_cases hp : p.id = pid
    · simp [setVoteFirst, hp]
    · simp [setVoteFirst, hp, ih]

/-- Voting-phase session holding only the facilitator f1, used for the C3
counterexample. -/
def sessC3 : Session :=
  { id := "EEEE", facilitatorId := "f1", facilitatorName := "Fay", status := .voting,
    currentItem := "S",
    participants := [{ id := "f1", name := "Fay", vote := none, isFacilitator := true }],
    createdAt := 0 }

/-- Hub holding sessC3. -/
def hubC3 : HubState := { session := some sessC3, connMap := [] }

/-- C3 counterexample: the claim requires the hub's handling of vote_cast
to fail with no mutation whenever the pid is the facilitator's; but on a
concrete voting-phase session the handler accepts a vote_cast carrying the
facilitatorId and mutates the facilitator's vote. -/
theorem c3_counterexample :
    sessC3.facilitatorId = "f1" ∧
    sessC3.status = .voting ∧
    (handleVoteCast hubC3 "f1" 5).1.session ≠ some sessC3 ∧
    lookupVote "f1" (sessParts (handleVoteCast hubC3 "f1" 5).1) = some (some 5) := by
  decide

/-- C3 amended: participant-side castVote fails with no mutation unless a
session is loaded, the local role is not facilitator, the status is voting
and the caller's id is in the roster, and on success records the value and
sends vote_cast; the hub's vote_cast handler fails with no mutation unless
the status is voting and a participant with the pid exists — it does NOT
require the pid to differ from the facilitator's — and on success records
the value on the first matching participant; re-voting overwrites. -/
theorem c3_castVote_gating (st : AppState) (s : Session) (v : Int)
    (h : HubState) (sess : Session) (pid : String)
    (l : List Participant) (v1 v2 : Option Int) :
    (st.session = none → castVoteA st v = (false, st, [])) ∧
    (st.session = some s → st.myRole = .facilitator → castVoteA st v = (false, st, [])) ∧
    (st.session = some s → s.status ≠ .voting → castVoteA st v = (false, st, [])) ∧
    (st.session = some s → (s.participants.any (fun p => p.id = st.myId)) = false →
      castVoteA st v = (false, st, [])) ∧
    (st.session = some s → st.myRole ≠ .facilitator → s.status = .voting →
      (s.participants.any (fun p => p.id = st.myId)) = true →
      castVoteA st v =
        (true,
         { st with session := some { s with participants := setVoteFirst st.myId (some v) s.participants } },
         [.send (.voteCast st.myId v)])) ∧
    (h.session = some sess → sess.status ≠ .voting → handleVoteCast h pid v = (h, [])) ∧
    (h.session = some sess → (sess.participants.any (fun p => p.id = pid)) = false →
      handleVoteCast h pid v = (h, [])) ∧
    (h.session = some sess → sess.status = .voting →
      (sess.participants.any (fun p => p.id = pid)) = true →
      (handleVoteCast h pid v).1.session = some (voteApplied sess pid v)) ∧
    setVoteFirst pid v2 (setVoteFirst pid v1 l) = setVoteFirst pid v2 l := by
  refine ⟨?_, ?_, ?_, ?_, ?_, ?_, ?_, ?_, setVoteFirst_overwrite pid v1 v2 l⟩
  · intro hs; simp [castVoteA, hs]
  · intro hs hrole; simp [castVoteA, hs, hrole]
  · intro hs hst
    rcases hrole : st.myRole <;> simp [castVoteA, hs, hrole, hst]
  · intro hs ha
    have hfind : s.participants.find? (fun p => p.id = st.myId) = none := by
      rw [List.find?_eq_none]
      intro x hx
      simp only [List.any_eq_false] at ha
      simpa using ha x hx
    rcases hrole : st.myRole <;>
      by_cases hst : s.status = Status.voting <;>
        simp [castVoteA, hs, hrole, hst, hfind]
  · intro hs hrole hst ha
    have hfind : (s.participants.find? (fun p => p.id = st.myId)).isSome := by
      rw [List.find?_isSome]
      rcases List.any_eq_true.mp ha with ⟨x, hx, hpx⟩
      exact ⟨x, hx, hpx⟩
    rcases hq : s.participants.find? (fun p => p.id = st.myId) with _ | q
    · rw [hq] at hfind; simp at hfind
    · simp [castVoteA, hs, hrole, hst, hq]
  · intro hs hst; simp [handleVoteCast, hs, hst]
  · intro hs ha
    have hfind : sess.participants.find? (fun p => p.id = pid) = none := by
      rw [List.find?_eq_none]
      intro x hx
      simp only [List.any_eq_false] at ha
      simpa using ha x hx
    by_cases hst : sess.status = Status.voting <;>
      simp [handleVoteCast, hs, hst, hfind]
  · intro hs hst ha
    have hfind : (sess.participants.find? (fun p => p.id = pid)).isSome := by
      rw [List.find?_isSome]
      rcases List.any_eq_true.mp ha with ⟨x, hx, hpx⟩
      exact ⟨x, hx, hpx⟩
    rcases hq : sess.participants.find? (fun p => p.id = pid) with _ | q
    · rw [hq] at hfind; simp at hfind
    · simp [handleVoteCast, hs, hst, hq]

/-- Waiting-phase session with facilitator f1 and participant p1 (C3
witness data). -/
def sessC3w : Session :=
  { id := "EEEE", facilitatorId := "f1", facilitatorName := "Fay", status := .waiting,
    currentItem := "S",
    participants :=
      [{ id := "f1", name := "Fay", vote := none, isFacilitator := true },
       { id := "p1", name := "Pat", vote := none, isFacilitator := false }],
    createdAt := 0 }

/-- Voting-phase variant of sessC3w. -/
def sessC3v : Session := { sessC3w with status := .voting }

/-- Participant p1's local state over the waiting session. -/
def stC3w : AppState :=
  { myId := "p1", myName := "Pat", myRole := .participant,
    sessionId := some "EEEE", session := some sessC3w }

/-- Participant p1's local state over the voting session. -/
def stC3v : AppState :=
  { myId := "p1", myName := "Pat", myRole := .participant,
    sessionId := some "EEEE", session := some sessC3v }

/-- Hub holding sessC3v. -/
def hubC3v : HubState := { session := some sessC3v, connMap := [] }

/-- C3 witness: concrete instances of the amended gating — failure in
waiting, success in voting, hub rejection of an unknown pid, and the
overwrite law. -/
theorem c3_castVote_gating_witness :
    castVoteA stC3w 5 = (false, stC3w, []) ∧
    castVoteA stC3v 5 =
      (true,
       { stC3v with session := some { sessC3v with participants := setVoteFirst "p1" (some 5) sessC3v.participants } },
       [.send (.voteCast "p1" 5)]) ∧
    handleVoteCast hubC3v "zz" 5 = (hubC3v, []) ∧
    setVoteFirst "p1" (some 3) (setVoteFirst "p1" (some 2) sessC3v.participants) =
      setVoteFirst "p1" (some 3) sessC3v.participants :=
  ⟨(c3_castVote_gating stC3w sessC3w 5 hubC3v sessC3v "zz"
      sessC3v.participants (some 2) (some 3)).2.2.1 rfl (by decide),
   (c3_castVote_gating stC3v sessC3v 5 hubC3v sessC3v "zz"
      sessC3v.participants (some 2) (some 3)).2.2.2.2.1 rfl (by decide) rfl (by decide),
   (c3_castVote_gating stC3v sessC3v 5 hubC3v sessC3v "zz"
      sessC3v.participants (some 2) (some 3)).2.2.2.2.2.2.1 rfl (by decide),
   (c3_castVote_gating stC3v sessC3v 5 hubC3v sessC3v "p1"
      sessC3v.participants (some 2) (some 3)).2.2.2.2.2.2.2.2⟩

theorem createLoopAux_congr (bind bind2 : Nat → BindResult) (codes : Nat → String) :
    ∀ (fuel i : Nat), (∀ k, k < i + fuel → bind2 k = bind k) →
      createLoopAux bind2 codes i fuel = createLoopAux bind codes i fuel := by
  intro fuel
  induction fuel with
  | zero => intro i h; rfl
  | succ f ih =>
    intro i h
    have hb : bind2 i = bind i := h i (by omega)
    cases hbi : bind i with
    | ok => simp [createLoopAux, hb, hbi]
    | idTaken =>
      by_cases hi : i < 4
      · simp only [createLoopAux, hb, hbi, hi, if_true]
        exact ih (i + 1) (fun k hk => h k (by omega))
      · simp [createLoopAux, hb, hbi, hi]
    | otherErr => simp [createLoopAux, hb, hbi]

/-- C7: the createSession retry loop makes at most 5 bind attempts with
freshly generated codes; an ID_TAKEN failure before the 5th attempt
regenerates and retries; success on attempt i yields the code generated on
attempt i, and the created session is persisted with it; five ID_TAKEN
failures, or any non-ID_TAKEN failure, make createSession fail with no
session persisted.  Attempts beyond the 5th are never consulted. -/
theorem c7_create_retry (bind bind2 : Nat → BindResult) (codes : Nat → String)
    (myId name item : String) (now : Nat) :
    (∀ i, i < 5 → (∀ j, j < i → bind j = .idTaken) → bind i = .ok →
      createAttempts bind codes = some (codes i)) ∧
    ((∀ i, i < 5 → bind i = .idTaken) → createAttempts bind codes = none) ∧
    (∀ i, i < 5 → (∀ j, j < i → bind j = .idTaken) → bind i = .otherErr →
      createAttempts bind codes = none) ∧
    ((∀ i, i < 5 → bind2 i = bind i) →
      createAttempts bind2 codes = createAttempts bind codes) ∧
    (createAttempts bind codes = none →
      createSessionF bind codes myId name item now = (false, none, [])) ∧
    (∀ sid, createAttempts bind codes = some sid → name ≠ "" →
      createSessionF bind codes myId name item now =
        (true, some (mkSession sid myId name item now),
         [.saveSession (mkSession sid myId name item now), .saveMe myId name, .setUrl sid])) := by
  refine ⟨?_, ?_, ?_, ?_, ?_, ?_⟩
  · intro i hi hprev hok
    interval_cases i
    · simp [createAttempts, createLoopAux, hok]
    · simp [createAttempts, createLoopAux, hprev 0 (by omega), hok]
    · simp [createAttempts, createLoopAux, hprev 0 (by omega), hprev 1 (by omega), hok]
    · simp [createAttempts, createLoopAux, hprev 0 (by omega), hprev 1 (by omega),
            hprev 2 (by omega), hok]
    · simp [createAttempts, createLoopAux, hprev 0 (by omega), hprev 1 (by omega),
            hprev 2 (by omega), hprev 3 (by omega), hok]
  · intro hb
    simp [createAttempts, createLoopAux, hb 0 (by omega), hb 1 (by omega),
          hb 2 (by omega), hb 3 (by omega), hb 4 (by omega)]
  · intro i hi hprev herr
    interval_cases i
    · simp [createAttempts, createLoopAux, herr]
    · simp [createAttempts, createLoopAux, hprev 0 (by omega), herr]
    · simp [createAttempts, createLoopAux, hprev 0 (by omega), hprev 1 (by omega), herr]
    · simp [createAttempts, createLoopAux, hprev 0 (by omega), hprev 1 (by omega),
            hprev 2 (by omega), herr]
    · simp [createAttempts, createLoopAux, hprev 0 (by omega), hprev 1 (by omega),
            hprev 2 (by omega), hprev 3 (by omega), herr]
  · intro hb
    exact createLoopAux_congr bind bind2 codes 5 0 (fun k hk => hb k (by omega))
  · intro h0
    by_cases hn : name = "" <;> simp [createSessionF, hn, h0]
  · intro sid hs hn
    simp [createSessionF, hn, hs]

/-- Bind oracle failing with ID_TAKEN on the first four attempts and
succeeding on the fifth (C7 witness data). -/
def bindW : Nat → BindResult := fun i => if i < 4 then .idTaken else .ok

/-- Bind oracle failing every attempt with ID_TAKEN. -/
def bindFail : Nat → BindResult := fun _ => .idTaken

/-- Concrete generated codes per attempt. -/
def codesW : Nat → String := fun i => ["AAAA", "BBBB", "CCCC", "DDDD", "EEEE"].getD i "XXXX"

/-- C7 witness: four collisions then success yields the 5th code and
persists the session built from it; five collisions yield failure with
nothing persisted. -/
theorem c7_create_retry_witness :
    createAttempts bindW codesW = some (codesW 4) ∧
    createAttempts bindFail codesW = none ∧
    createSessionF bindFail codesW "f1" "Fay" "" 0 = (false, none, []) ∧
    createSessionF bindW codesW "f1" "Fay" "" 0 =
      (true, some (mkSession (codesW 4) "f1" "Fay" "" 0),
       [.saveSession (mkSession (codesW 4) "f1" "Fay" "" 0), .saveMe "f1" "Fay",
        .setUrl (codesW 4)]) := by
  have h := c7_create_retry bindW bindW codesW "f1" "Fay" "" 0
  have hfail := c7_create_retry bindFail bindFail codesW "f1" "Fay" "" 0
  refine ⟨?_, ?_, ?_, ?_⟩
  · exact h.1 4 (by decide) (by decide) (by decide)
  · exact hfail.2.1 (by decide)
  · exact hfail.2.2.2.2.1 (hfail.2.1 (by decide))
  · exact h.2.2.2.2.2 (codesW 4) (h.1 4 (by decide) (by decide) (by decide)) (by decide)

theorem facCount_append (l1 l2 : List Participant) :
    facCount (l1 ++ l2) = facCount l1 + facCount l2 := by
  simp [facCount, List.filter_append]

theorem facCount_setVoteFirst (pid : String) (v : Option Int) (l : List Participant) :
    facCount (setVoteFirst pid v l) = facCount l := by
  induction l with
  | nil => rfl
  | cons p ps ih =>
    by_cases hp : p.id = pid
    · rcases hf : p.isFacilitator <;>
        simp [setVoteFirst, hp, facCount, List.filter_cons, hf]
    · simp [setVoteFirst, hp, facCount, List.filter_cons] at ih ⊢
      rcases hf : p.isFacilitator <;> simp [hf, ih]

theorem mem_setVoteFirst (pid : String) (v : Option Int) (l : List Participant)
    (p : Participant) (hp : p ∈ setVoteFirst pid v l) :
    ∃ q ∈ l, p.id = q.id ∧ p.isFacilitator = q.isFacilitator := by
  induction l with
  | nil => simp [setVoteFirst] at hp
  | cons q qs ih =>
    by_cases hq : q.id = pid
    · simp [setVoteFirst, hq] at hp
      rcases hp with rfl | hp
      · exact ⟨q, by simp, by simp [hq], rfl⟩
      · exact ⟨p, by simp [hp], rfl, rfl⟩
    · simp [setVoteFirst, hq] at hp
      rcases hp with rfl | hp
      · exact ⟨p, by simp, rfl, rfl⟩
      · rcases ih hp with ⟨r, hr, h1, h2⟩
        exact ⟨r, by simp [hr], h1, h2⟩

theorem facCount_resetVotes (l : List Participant) :
    facCount (resetVotes l) = facCount l := by
  induction l with
  | nil => rfl
  | cons p ps ih =>
    simp [resetVotes, facCount, List.filter_cons] at ih ⊢
    rcases hf : p.isFacilitator <;> simp [hf, ih]

theorem mem_resetVotes (l : List Participant) (p : Participant) (hp : p ∈ resetVotes l) :
    ∃ q ∈ l, p.id = q.id ∧ p.isFacilitator = q.isFacilitator := by
  rcases List.mem_map.mp hp with ⟨q, hq, rfl⟩
  exact ⟨q, hq, rfl, rfl⟩

theorem facCount_removeById (fid pid : String) (l : List Participant)
    (hall : ∀ p ∈ l, p.isFacilitator = true → p.id = fid) (hne : pid ≠ fid) :
    facCount (removeById pid l) = facCount l := by
  induction l with
  | nil => rfl
  | cons p ps ih =>
    have hps : ∀ q ∈ ps, q.isFacilitator = true → q.id = fid :=
      fun q hq => hall q (by simp [hq])
    by_cases hid : p.id = pid
    · have hpf : p.isFacilitator = false := by
        rcases hf : p.isFacilitator
        · rfl
        · exact absurd (hall p (by simp) hf) (by rw [hid]; exact hne)
      simp [removeById, List.filter_cons, hid, facCount, hpf] at ih ⊢
      exact ih hps
    · simp [removeById, List.filter_cons, hid, facCount] at ih ⊢
      rcases hf : p.isFacilitator <;> simp [hf, ih hps]

/-- Exactly-one-facilitator roster invariant: one entry is flagged, and
every flagged entry carries the facilitator's id. -/
abbrev RosterInv (fid : String) (l : List Participant) : Prop :=
  facCount l = 1 ∧ ∀ p ∈ l, p.isFacilitator = true → p.id = fid

theorem rosterInv_append_nonfac (fid : String) (l : List Participant) (p : Participant)
    (hro : RosterInv fid l) (hpf : p.isFacilitator = false) :
    RosterInv fid (l ++ [p]) := by
  constructor
  · rw [facCount_append]
    have h0 : facCount [p] = 0 := by simp [facCount, hpf]
    rw [h0]
    simpa using hro.1
  · intro q hq hf
    rcases List.mem_append.mp hq with h1 | h2
    · exact hro.2 q h1 hf
    · simp at h2
      rw [h2] at hf
      rw [hpf] at hf
      cases hf

theorem rosterInv_setVoteFirst (fid pid : String) (v : Option Int) (l : List Participant)
    (hro : RosterInv fid l) : RosterInv fid (setVoteFirst pid v l) := by
  constructor
  · rw [facCount_setVoteFirst]; exact hro.1
  · intro p hp hf
    rcases mem_setVoteFirst pid v l p hp with ⟨q, hq, h1, h2⟩
    rw [h1]
    exact hro.2 q hq (by rw [← h2]; exact hf)

theorem rosterInv_resetVotes (fid : String) (l : List Participant)
    (hro : RosterInv fid l) : RosterInv fid (resetVotes l) := by
  constructor
  · rw [facCount_resetVotes]; exact hro.1
  · intro p hp hf
    rcases mem_resetVotes l p hp with ⟨q, hq, h1, h2⟩
    rw [h1]
    exact hro.2 q hq (by rw [← h2]; exact hf)

theorem rosterInv_removeById (fid pid : String) (l : List Participant)
    (hro : RosterInv fid l) (hne : pid ≠ fid) : RosterInv fid (removeById pid l) := by
  constructor
  · rw [facCount_removeById fid pid l hro.2 hne]; exact hro.1
  · intro p hp hf
    exact hro.2 p (List.mem_of_mem_filter hp) hf

theorem mem_mapSet (m : List (String × String)) (peer appId : String) (e : String × String)
    (he : e ∈ mapSet m peer appId) : e ∈ m ∨ e.2 = appId := by
  induction m with
  | nil =>
    simp [mapSet] at he
    simp [he]
  | cons x xs ih =>
    by_cases hx : x.1 = peer
    · simp [mapSet, hx] at he
      rcases he with rfl | he
      · right; rfl
      · left; simp [he]
    · simp [mapSet, hx] at he
      rcases he with rfl | he
      · left; simp
      · rcases ih he with h1 | h2
        · left; simp [h1]
        · right; exact h2

theorem mapGet_mem (m : List (String × String)) (peer appId : String)
    (h : mapGet m peer = some appId) : (peer, appId) ∈ m := by
  unfold mapGet at h
  rcases hf : m.find? (fun e => e.1 = peer) with _ | e
  · rw [hf] at h; simp at h
  · rw [hf] at h
    simp at h
    have hmem := List.mem_of_find?_eq_some hf
    have hpeer : e.1 = peer := by simpa using List.find?_some hf
    have : (peer, appId) = e := by
      cases e
      simp at hpeer h
      simp [hpeer, h]
    rw [this]
    exact hmem

/-- Facilitator-side single-facilitator invariant: a session is loaded,
its facilitatorId is fid, its roster has exactly one flagged entry whose id
is fid, and no channel in _connMap announced fid as its participant id. -/
abbrev InvFac (fid : String) (h : HubState) : Prop :=
  h.session.map Session.facilitatorId = some fid ∧
  RosterInv fid (sessParts h) ∧
  ∀ e ∈ h.connMap, e.2 ≠ fid

/-- Trace side condition under which the single-facilitator invariant is
preserved: no participant_join or participant_leave message carries a pid
equal to the facilitator's id. -/
def goodEventB (fid : String) : HubEvent → Bool
  | .join _ pid _ => pid != fid
  | .leave _ pid => pid != fid
  | _ => true

theorem connMap_mapSet_ne (fid : String) (m : List (String × String)) (peer pid : String)
    (hcm : ∀ e ∈ m, e.2 ≠ fid) (hpid : pid ≠ fid) :
    ∀ e ∈ mapSet m peer pid, e.2 ≠ fid := by
  intro e he
  rcases mem_mapSet m peer pid e he with h1 | h2
  · exact hcm e h1
  · rw [h2]; exact hpid

theorem connMap_mapDelete_ne (fid : String) (m : List (String × String)) (peer : String)
    (hcm : ∀ e ∈ m, e.2 ≠ fid) :
    ∀ e ∈ mapDelete m peer, e.2 ≠ fid := by
  intro e he
  exact hcm e (List.mem_of_mem_filter he)

theorem invFac_step (fid : String) (h : HubState) (e : HubEvent)
    (hI : InvFac fid h) (hg : goodEventB fid e = true) : InvFac fid (stepH h e) := by
  rcases hs : h.session with _ | sess
  · exfalso
    have := hI.1
    rw [hs] at this
    simp at this
  · have hfid2 : sess.facilitatorId = fid := by
      have := hI.1
      rw [hs] at this
      simpa using this
    have hro : RosterInv fid sess.participants := by
      have := hI.2.1
      simpa [sessParts, hs] using this
    have hcm := hI.2.2
    cases e with
    | join peer pid name =>
      have hpid : pid ≠ fid := by simpa [goodEventB] using hg
      have hcm2 := connMap_mapSet_ne fid h.connMap peer pid hcm hpid
      by_cases ha : (sess.participants.any (fun p => p.id = pid)) = true
      · have hst : stepH h (.join peer pid name) =
            { session := some sess, connMap := mapSet h.connMap peer pid } := by
          simp [stepH, handleJoin, hs, ha]
        rw [hst]
        exact ⟨by simp [hfid2], by simpa [sessParts] using hro, hcm2⟩
      · by_cases hcap : MAX_PARTICIPANTS ≤ nonFacCount sess.participants
        · have hst : stepH h (.join peer pid name) =
              { session := some sess, connMap := mapSet h.connMap peer pid } := by
            simp [stepH, handleJoin, hs, ha, hcap]
          rw [hst]
          exact ⟨by simp [hfid2], by simpa [sessParts] using hro, hcm2⟩
        · have hst : stepH h (.join peer pid name) =
              { session := some { sess with participants := sess.participants ++
                  [{ id := pid, name := name, vote := none, isFacilitator := false }] },
                connMap := mapSet h.connMap peer pid } := by
            simp [stepH, handleJoin, hs, ha, hcap]
          rw [hst]
          refine ⟨by simp [hfid2], ?_, hcm2⟩
          simpa [sessParts] using
            rosterInv_append_nonfac fid sess.participants
              { id := pid, name := name, vote := none, isFacilitator := false } hro rfl
    | voteCast pid v =>
      by_cases hvst : sess.status = Status.voting
      · rcases hq : sess.participants.find? (fun p => p.id = pid) with _ | q
        · have hst : stepH h (.voteCast pid v) = h := by
            simp [stepH, handleVoteCast, hs, hvst, hq]
          rw [hst]; exact hI
        · have hst : stepH h (.voteCast pid v) =
              { h with session := some (voteApplied sess pid v) } := by
            simp [stepH, handleVoteCast, hs, hvst, hq]
          rw [hst]
          refine ⟨by simp [voteApplied, hfid2], ?_, hcm⟩
          simpa [sessParts, voteApplied] using
            rosterInv_setVoteFirst fid pid (some v) sess.participants hro
      · have hst : stepH h (.voteCast pid v) = h := by
          simp [stepH, handleVoteCast, hs, hvst]
        rw [hst]; exact hI
    | leave peer pid =>
      have hpid : pid ≠ fid := by simpa [goodEventB] using hg
      have hst : stepH h (.leave peer pid) =
          { session := some { sess with participants := removeById pid sess.participants },
            connMap := mapDelete h.connMap peer } := by
        simp [stepH, handleLeave, hubRemove, hs]
      rw [hst]
      refine ⟨by simp [hfid2], ?_, connMap_mapDelete_ne fid h.connMap peer hcm⟩
      simpa [sessParts] using rosterInv_removeById fid pid sess.participants hro hpid
    | disconnect peer =>
      rcases hg2 : mapGet h.connMap peer with _ | appId
      · have hst : stepH h (.disconnect peer) = h := by
          simp [stepH, handleDisconnect, hg2]
        rw [hst]; exact hI
      · have happ : appId ≠ fid := hcm (peer, appId) (mapGet_mem h.connMap peer appId hg2)
        have hst : stepH h (.disconnect peer) =
            { session := some { sess with participants := removeById appId sess.participants },
              connMap := mapDelete h.connMap peer } := by
          simp [stepH, handleDisconnect, hubRemove, hg2, hs]
        rw [hst]
        refine ⟨by simp [hfid2], ?_, connMap_mapDelete_ne fid h.connMap peer hcm⟩
        simpa [sessParts] using rosterInv_removeById fid appId sess.participants hro happ
    | launch item =>
      have hst : stepH h (.launch item) =
          { h with session := some (launchVote item sess) } := by
        simp [stepH, hs]
      rw [hst]
      refine ⟨by simp [launchVote, hfid2], ?_, hcm⟩
      simpa [sessParts, launchVote] using
        rosterInv_resetVotes fid sess.participants hro
    | reveal =>
      have hst : stepH h .reveal = { h with session := some (revealVotes sess) } := by
        simp [stepH, hs]
      rw [hst]
      exact ⟨by simp [revealVotes, hfid2], by simpa [sessParts, revealVotes] using hro, hcm⟩
    | round =>
      have hst : stepH h .round = { h with session := some (newRound sess) } := by
        simp [stepH, hs]
      rw [hst]
      refine ⟨by simp [newRound, hfid2], ?_, hcm⟩
      simpa [sessParts, newRound] using
        rosterInv_resetVotes fid sess.participants hro
    | update item =>
      have hst : stepH h (.update item) =
          { h with session := some (updateItem item sess) } := by
        simp [stepH, hs]
      rw [hst]
      exact ⟨by simp [updateItem, hfid2], by simpa [sessParts, updateItem] using hro, hcm⟩

theorem invFac_run (fid : String) (h : HubState) (es : List HubEvent)
    (hI : InvFac fid h) (hg : ∀ e ∈ es, goodEventB fid e = true) :
    InvFac fid (runH h es) := by
  induction es generalizing h with
  | nil => exact hI
  | cons e es ih =>
    have hstep : runH h (e :: es) = runH (stepH h e) es := by simp [runH]
    rw [hstep]
    exact ih (stepH h e) (invFac_step fid h e hI (hg e (by simp)))
      (fun e2 he2 => hg e2 (by simp [he2]))

/-- C1 amended: in every state reachable from createSession via the hub's
message handlers and the facilitator operations, exactly one roster entry
has isFacilitator = true and its id equals facilitatorId — PROVIDED the
trace contains no participant_join or participant_leave message whose pid
equals the facilitatorId.  (Without that proviso the invariant fails: the
handlers do not validate the pid, see the counterexample.) -/
theorem c1_single_facilitator (sid myId name item : String) (now : Nat)
    (es : List HubEvent) (hg : ∀ e ∈ es, goodEventB myId e = true) :
    InvFac myId (runH (hubInit sid myId name item now) es) := by
  apply invFac_run
  · refine ⟨by simp [hubInit, mkSession], ?_, by simp [hubInit]⟩
    constructor
    · simp [hubInit, sessParts, mkSession, facCount]
    · intro p hp hf
      simp [hubInit, sessParts, mkSession] at hp
      simp [hp]
  · exact hg

/-- C1 counterexample: the invariant holds right after createSession, but
one participant_leave message carrying the facilitatorId — processed by
the very handlers the claim quantifies over — empties the roster, leaving
zero facilitators.  The claim as stated (for every reachable state) is
therefore false. -/
theorem c1_counterexample :
    InvFac "f1" (hubInit "AAAA" "f1" "Fay" "" 0) ∧
    ¬ InvFac "f1" (runH (hubInit "AAAA" "f1" "Fay" "" 0) [.leave "pe1" "f1"]) ∧
    sessParts (runH (hubInit "AAAA" "f1" "Fay" "" 0) [.leave "pe1" "f1"]) = [] := by
  refine ⟨?_, ?_, ?_⟩ <;> decide

/-- C1 witness: a concrete good trace (a join and a leave of p1) keeps
exactly one facilitator. -/
theorem c1_single_facilitator_witness :
    InvFac "f1" (runH (hubInit "AAAA" "f1" "Fay" "" 0)
      [.join "pe1" "p1" "Pat", .leave "pe1" "p1"]) :=
  c1_single_facilitator "AAAA" "f1" "Fay" "" 0
    [.join "pe1" "p1" "Pat", .leave "pe1" "p1"] (by decide)

end Poker
